import Mathlib

/-!
Verification of the binance-trade-bot scouting and decision engine.

Shallow embedding of the repository's core code:
- `strategies/test1_strategy.py` (`_get_ratios`, `transaction_through_bridge`)
- `strategies/custom1_strategy.py` (stop-loss monitor, USDT-origin scouting)
- `database.py` (`TradeLog`, price/scout-history high-price queries)

Prices, fees and balances are embedded as exact rationals (`ℚ`).
Python exceptions (`ZeroDivisionError`, `AttributeError`, `TypeError`)
are modelled with an explicit `Except` error channel; `None` results are
`Option.none`; Python truthiness of a float is "nonzero".
-/

deriving instance DecidableEq for Except

namespace BTBot

/-- The hard-coded bridge/stable symbol the strategies compare against
(`'USDT'` literals in `test1_strategy.py` and `custom1_strategy.py`). -/
def USDT : String := "USDT"

/-- A coin row (`models/coin.py` usage visible through `database.py`):
identified by its symbol. -/
structure Coin where
  symbol : String
deriving DecidableEq, Repr

/-- A pair row: ordered (from_coin, to_coin) with its stored `ratio`
baseline (`models/pair.py` usage visible through `database.py`). -/
structure Pair where
  from_coin : Coin
  to_coin : Coin
  ratio : ℚ
deriving DecidableEq, Repr

/-- Python exceptions the embedded code can raise. -/
inductive PyError where
  | zeroDivisionError
  | attributeError
  | typeError
deriving DecidableEq, Repr

/-! ## Ratio Engine: `Strategy._get_ratios` (test1_strategy.py lines 104-143) -/

/-- The market-gateway and configuration inputs `_get_ratios` reads.
`getTickerPrice s` is `manager.get_ticker_price(s + BRIDGE)`;
`getFee s selling` is `manager.get_fee(s, BRIDGE, selling)`;
`scoutMultiplier` is `config.SCOUT_MULTIPLIER`. -/
structure ScoutEnv where
  getTickerPrice : String → Option ℚ
  getFee : String → Bool → ℚ
  scoutMultiplier : ℚ

/-- Lines 116-121: resolved target price: exactly 1 when the target coin is
USDT, otherwise the live ticker price of `to_coin + BRIDGE`. -/
def optionalCoinPrice (env : ScoutEnv) (p : Pair) : Option ℚ :=
  if p.to_coin.symbol = USDT then some 1 else env.getTickerPrice p.to_coin.symbol

/-- Lines 116-121: the exit fee: forced to 0 when the target is USDT,
otherwise the sell-side fee of the target against the bridge. -/
def feeOut (env : ScoutEnv) (p : Pair) : ℚ :=
  if p.to_coin.symbol = USDT then 0 else env.getFee p.to_coin.symbol false

/-- Line 134: round-trip `transaction_fee`: buy-side fee of the source coin
plus `fee_out`. -/
def transactionFee (env : ScoutEnv) (p : Pair) : ℚ :=
  env.getFee p.from_coin.symbol true + feeOut env p

/-- Lines 110-113: `cmt`: the configured multiplier, boosted by 1.4 when the
held (source) coin is USDT. -/
def cmtOf (env : ScoutEnv) (coin : Coin) : ℚ :=
  if coin.symbol = USDT then env.scoutMultiplier * 1.4 else env.scoutMultiplier

/-- Lines 135-139: the sensitivity multiplier `mt` used for a pair:
`-0.001 / transaction_fee` when the target coin is USDT, else `cmt`. -/
def mtOf (env : ScoutEnv) (coin : Coin) (p : Pair) : ℚ :=
  if p.to_coin.symbol = USDT then -0.001 / transactionFee env p else cmtOf env coin

/-- One iteration of the `_get_ratios` loop body (lines 116-141) for pair
`p`: `.ok none` when the pair is skipped because the target price did not
resolve; `.ok (some s)` with the computed score otherwise; `.error` models
Python's `ZeroDivisionError` (division `coin_price / optional_coin_price`
at line 132 with a zero price, or `-0.001 / transaction_fee` at line 137
with a zero fee). -/
def pairScore (env : ScoutEnv) (coin : Coin) (coin_price : ℚ) (p : Pair) :
    Except PyError (Option ℚ) :=
  match optionalCoinPrice env p with
  | none => .ok none
  | some tp =>
    if tp = 0 then .error .zeroDivisionError
    else if p.to_coin.symbol = USDT ∧ transactionFee env p = 0 then
      .error .zeroDivisionError
    else
      .ok (some (coin_price / tp * (1 - transactionFee env p * mtOf env coin p) - p.ratio))

/-- `Strategy._get_ratios` (lines 104-143): folds the loop body over the
pairs from the held coin, building the `ratio_dict` in iteration order; a
raised exception aborts the whole computation as in Python. -/
def get_ratios (env : ScoutEnv) (coin : Coin) (coin_price : ℚ) :
    List Pair → Except PyError (List (Pair × ℚ))
  | [] => .ok []
  | p :: rest =>
    match pairScore env coin coin_price p with
    | .error e => .error e
    | .ok none => get_ratios env coin coin_price rest
    | .ok (some s) =>
      match get_ratios env coin coin_price rest with
      | .error e => .error e
      | .ok l => .ok ((p, s) :: l)

/-- Helper: a score recorded in a successful `_get_ratios` run is the score
the loop body computed for that pair. -/
theorem mem_get_ratios_ok {env : ScoutEnv} {coin : Coin} {cp : ℚ}
    {pairs : List Pair} {l : List (Pair × ℚ)} {p : Pair} {s : ℚ}
    (hok : get_ratios env coin cp pairs = .ok l) (hm : (p, s) ∈ l) :
    pairScore env coin cp p = .ok (some s) := by
  induction pairs generalizing l with
  | nil =>
    simp only [get_ratios, Except.ok.injEq] at hok
    subst hok
    simp at hm
  | cons q rest ih =>
    simp only [get_ratios] at hok
    cases hq : pairScore env coin cp q with
    | error e => rw [hq] at hok; cases hok
    | ok o =>
      cases o with
      | none =>
        rw [hq] at hok
        exact ih hok hm
      | some s0 =>
        rw [hq] at hok
        cases hr : get_ratios env coin cp rest with
        | error e => rw [hr] at hok; cases hok
        | ok l0 =>
          rw [hr] at hok
          cases hok
          rcases List.mem_cons.mp hm with h | h
          · cases h; exact hq
          · exact ih hr h

/-- Helper: unpacking a successful loop-body score at a resolved target
price. -/
theorem pairScore_ok_eq {env : ScoutEnv} {coin : Coin} {cp : ℚ} {p : Pair}
    {s tp : ℚ} (htp : optionalCoinPrice env p = some tp)
    (hok : pairScore env coin cp p = .ok (some s)) :
    s = cp / tp * (1 - transactionFee env p * mtOf env coin p) - p.ratio := by
  simp only [pairScore, htp] at hok
  by_cases h0 : tp = 0
  · rw [if_pos h0] at hok; cases hok
  · rw [if_neg h0] at hok
    by_cases hz : p.to_coin.symbol = USDT ∧ transactionFee env p = 0
    · rw [if_pos hz] at hok; cases hok
    · rw [if_neg hz] at hok
      simp only [Except.ok.injEq, Option.some.injEq] at hok
      exact hok.symm

/-- Helper: the loop body can only raise `ZeroDivisionError` (the only
exception site in `_get_ratios` is a division). -/
theorem pairScore_error_eq {env : ScoutEnv} {coin : Coin} {cp : ℚ} {p : Pair}
    {e : PyError} (h : pairScore env coin cp p = .error e) :
    e = PyError.zeroDivisionError := by
  cases htp : optionalCoinPrice env p with
  | none => simp [pairScore, htp] at h
  | some tp =>
    simp only [pairScore, htp] at h
    by_cases h0 : tp = 0
    · rw [if_pos h0] at h; cases h; rfl
    · rw [if_neg h0] at h
      by_cases hz : p.to_coin.symbol = USDT ∧ transactionFee env p = 0
      · rw [if_pos hz] at h; cases h; rfl
      · rw [if_neg hz] at h; cases h

/-- Helper: a USDT-target pair whose source has a zero buy-side fee makes
the loop body raise `ZeroDivisionError` at `-0.001 / transaction_fee`. -/
theorem pairScore_usdt_zero_fee {env : ScoutEnv} {coin : Coin} {cp : ℚ}
    {p : Pair} (hto : p.to_coin.symbol = USDT)
    (hfee : env.getFee p.from_coin.symbol true = 0) :
    pairScore env coin cp p = .error .zeroDivisionError := by
  have htf : transactionFee env p = 0 := by
    simp [transactionFee, feeOut, hto, hfee]
  have htp : optionalCoinPrice env p = some 1 := by
    simp [optionalCoinPrice, hto]
  simp [pairScore, htp, hto, htf]

/-- Market data of the spec's worked scenario: price(BTC/USDT) = 40000,
every fee 0.001 (so a 0.002 round trip), configured sensitivity 5. -/
def envC1 : ScoutEnv :=
  { getTickerPrice := fun s => if s = "BTC" then some 40000 else none
    getFee := fun _ _ => 0.001
    scoutMultiplier := 5 }

/-- The scenario's evaluated pair: held ETH against target BTC with stored
baseline ratio 0.05. -/
def pairC1 : Pair := ⟨⟨"ETH"⟩, ⟨"BTC"⟩, 0.05⟩

/-- An ETH → USDT pair with stored baseline ratio 0.05. -/
def pairU : Pair := ⟨⟨"ETH"⟩, ⟨"USDT"⟩, 0.05⟩

/-- A market gateway whose buy-side fee for every coin is 0. -/
def envZ : ScoutEnv :=
  { getTickerPrice := fun _ => some 40000
    getFee := fun _ _ => 0
    scoutMultiplier := 5 }

theorem btc_ne_usdt : ("BTC" : String) ≠ "USDT" := by decide

theorem eth_ne_usdt : ("ETH" : String) ≠ "USDT" := by decide

/-- Helper: if some pair of the list makes the loop body raise, the whole
`_get_ratios` run raises `ZeroDivisionError`. -/
theorem get_ratios_error_of_mem {env : ScoutEnv} {coin : Coin} {cp : ℚ}
    {pairs : List Pair} {p : Pair} (hp : p ∈ pairs)
    (hperr : pairScore env coin cp p = .error .zeroDivisionError) :
    get_ratios env coin cp pairs = .error .zeroDivisionError := by
  induction pairs with
  | nil => cases hp
  | cons q rest ih =>
    rcases List.mem_cons.mp hp with h | h
    · subst h
      simp [get_ratios, hperr]
    · simp only [get_ratios]
      cases hq : pairScore env coin cp q with
      | error e => rw [pairScore_error_eq hq]
      | ok o =>
        cases o with
        | none => exact ih h
        | some s0 => rw [ih h]

/-- C1: for every pair a successful `_get_ratios` run scored, at its
resolved target price `tp` the score equals
`cp / tp * (1 - transaction_fee * mt) - pair.ratio`; and in the spec's
worked scenario (held price 2000, target price 40000, `pair.ratio` 0.05,
fees totalling 0.002, sensitivity 5) the single score is exactly -0.0005,
so no rotation threshold is cleared. -/
theorem ratio_engine_score_formula :
    (∀ (env : ScoutEnv) (coin : Coin) (cp : ℚ) (pairs : List Pair)
       (l : List (Pair × ℚ)) (p : Pair) (s tp : ℚ),
       get_ratios env coin cp pairs = .ok l → (p, s) ∈ l →
       optionalCoinPrice env p = some tp →
       s = cp / tp * (1 - transactionFee env p * mtOf env coin p) - p.ratio) ∧
    get_ratios envC1 ⟨"ETH"⟩ 2000 [pairC1] = .ok [(pairC1, -0.0005)] := by
  constructor
  · intro env coin cp pairs l p s tp hok hm htp
    exact pairScore_ok_eq htp (mem_get_ratios_ok hok hm)
  · norm_num [get_ratios, pairScore, optionalCoinPrice, transactionFee, feeOut, mtOf,
      cmtOf, envC1, pairC1, USDT, btc_ne_usdt, eth_ne_usdt]

/-- Witness for C1 at the spec scenario: the score -0.0005 satisfies the
claimed formula. -/
theorem ratio_engine_score_formula_witness :
    (-0.0005 : ℚ) =
      2000 / 40000 * (1 - transactionFee envC1 pairC1 * mtOf envC1 ⟨"ETH"⟩ pairC1) -
        pairC1.ratio :=
  ratio_engine_score_formula.1 envC1 ⟨"ETH"⟩ 2000 [pairC1] [(pairC1, -0.0005)]
    pairC1 (-0.0005) 40000 ratio_engine_score_formula.2 (by simp)
    (by norm_num [optionalCoinPrice, envC1, pairC1, USDT, btc_ne_usdt])

/-- C4: in every recorded score, the sensitivity multiplier is
`-0.001 / transaction_fee` when the pair's target is USDT, and otherwise
the configured constant, boosted by 1.4 exactly when the held (source) coin
is USDT. -/
theorem ratio_engine_sensitivity_multiplier (env : ScoutEnv) (coin : Coin)
    (cp : ℚ) (pairs : List Pair) (l : List (Pair × ℚ)) (p : Pair) (s tp : ℚ)
    (hok : get_ratios env coin cp pairs = .ok l) (hm : (p, s) ∈ l)
    (htp : optionalCoinPrice env p = some tp) :
    (p.to_coin.symbol = USDT →
      s = cp / tp *
          (1 - transactionFee env p * (-0.001 / transactionFee env p)) - p.ratio) ∧
    (p.to_coin.symbol ≠ USDT →
      s = cp / tp * (1 - transactionFee env p *
          (if coin.symbol = USDT then env.scoutMultiplier * 1.4
           else env.scoutMultiplier)) - p.ratio) := by
  have h := pairScore_ok_eq htp (mem_get_ratios_ok hok hm)
  constructor
  · intro hu
    rw [h]
    simp [mtOf, hu]
  · intro hu
    rw [h]
    simp [mtOf, cmtOf, hu]

/-- Witness for C4: an ETH holder scoring the ETH → USDT pair with 0.001
entry fee gets exactly the fee-normalized multiplier -0.001/0.001 = -1. -/
theorem ratio_engine_sensitivity_multiplier_witness :
    (2001.95 : ℚ) =
      2000 / 1 * (1 - transactionFee envC1 pairU * (-0.001 / transactionFee envC1 pairU)) -
        pairU.ratio :=
  (ratio_engine_sensitivity_multiplier envC1 ⟨"ETH"⟩ 2000 [pairU] [(pairU, 2001.95)]
      pairU 2001.95 1
      (by norm_num [get_ratios, pairScore, optionalCoinPrice, transactionFee, feeOut,
        mtOf, cmtOf, envC1, pairU, USDT, btc_ne_usdt, eth_ne_usdt])
      (by simp) rfl).1 rfl

/-- C10: for a pair targeting USDT, the exit fee is forced to 0 so the
round-trip fee is the source coin's buy-side fee alone, and when the
gateway reports that fee as 0 the unguarded `-0.001 / transaction_fee`
raises `ZeroDivisionError`, so `_get_ratios` is total only under a nonzero
buy-side fee for the held asset. -/
theorem get_ratios_usdt_zero_fee (env : ScoutEnv) (coin : Coin) (cp : ℚ)
    (pairs : List Pair) (p : Pair) (hp : p ∈ pairs)
    (hto : p.to_coin.symbol = USDT) (hfrom : p.from_coin.symbol = coin.symbol) :
    feeOut env p = 0 ∧
    transactionFee env p = env.getFee coin.symbol true ∧
    (env.getFee coin.symbol true = 0 →
      get_ratios env coin cp pairs = .error .zeroDivisionError) := by
  refine ⟨by simp [feeOut, hto], by simp [transactionFee, feeOut, hto, hfrom], ?_⟩
  intro hfee
  exact get_ratios_error_of_mem hp
    (pairScore_usdt_zero_fee hto (by rw [hfrom]; exact hfee))

/-- Witness for C10: an all-zero-fee gateway makes `_get_ratios` raise on
the ETH → USDT pair. -/
theorem get_ratios_usdt_zero_fee_witness :
    feeOut envZ pairU = 0 ∧
    transactionFee envZ pairU = envZ.getFee (Coin.mk "ETH").symbol true ∧
    (envZ.getFee (Coin.mk "ETH").symbol true = 0 →
      get_ratios envZ ⟨"ETH"⟩ 2000 [pairU] = .error .zeroDivisionError) :=
  get_ratios_usdt_zero_fee envZ ⟨"ETH"⟩ 2000 [pairU] pairU (by simp) rfl rfl

/-! ## Trade lifecycle: `TradeLog` (database.py lines 435-464) -/

/-- The trade lifecycle states (`TradeState` is referenced by
`database.py`; its enum lives in the models package, outside src/). -/
inductive TradeState where
  | CREATED
  | ORDERED
  | COMPLETE
deriving DecidableEq, Repr

/-- A Trade row as `database.py` reads and writes it: coins, direction,
state tag, and the stage amounts `set_ordered` / `set_complete` fill in. -/
structure Trade where
  alt_coin : Coin
  crypto_coin : Coin
  selling : Bool
  state : TradeState
  alt_starting_balance : Option ℚ
  alt_trade_amount : Option ℚ
  crypto_starting_balance : Option ℚ
  crypto_trade_amount : Option ℚ
deriving DecidableEq, Repr

/-- Modelled from the spec: the fresh Trade row `TradeLog.__init__`
(database.py lines 436-446) adds. The `Trade` constructor itself is in the
models package, which is not under src/; spec 4.3 fixes its initial state:
"`CREATED` is set at the moment a rotation is decided and before any
exchange call is issued", with the stage amounts still unset. -/
def startTradeLog (alt crypto : Coin) (selling : Bool) : Trade :=
  { alt_coin := alt, crypto_coin := crypto, selling := selling,
    state := .CREATED, alt_starting_balance := none, alt_trade_amount := none,
    crypto_starting_balance := none, crypto_trade_amount := none }

/-- `TradeLog.set_ordered` (database.py lines 448-456): records the starting
balances and traded amount and tags the row `ORDERED`. -/
def set_ordered (t : Trade) (alt_starting_balance crypto_starting_balance
    alt_trade_amount : ℚ) : Trade :=
  { t with alt_starting_balance := some alt_starting_balance,
           alt_trade_amount := some alt_trade_amount,
           crypto_starting_balance := some crypto_starting_balance,
           state := .ORDERED }

/-- `TradeLog.set_complete` (database.py lines 458-464): records the final
acquired amount and tags the row `COMPLETE`. -/
def set_complete (t : Trade) (crypto_trade_amount : ℚ) : Trade :=
  { t with crypto_trade_amount := some crypto_trade_amount,
           state := .COMPLETE }

/-- A mutation applied to a trade row after its creation. -/
inductive TradeOp where
  | markOrdered (alt_starting crypto_starting alt_amount : ℚ)
  | markComplete (crypto_amount : ℚ)
deriving DecidableEq, Repr

/-- Apply one `TradeLog` mutation. -/
def applyOp (t : Trade) : TradeOp → Trade
  | .markOrdered a c x => set_ordered t a c x
  | .markComplete y => set_complete t y

/-- The sequence of observed states: the state at creation followed by the
state after each mutation. -/
def stateTrace (t : Trade) : List TradeOp → List TradeState
  | [] => [t.state]
  | op :: ops => t.state :: stateTrace (applyOp t op) ops

/-- Modelled from the spec: the orchestrator's call discipline. The callers
of `set_ordered` and `set_complete` are in `auto_trader.py` and
`binance_api_manager.py`, which are not under src/; spec 4.3 states that
`ORDERED` is set once, after the sell leg (or bridge pass-through)
confirms, and `COMPLETE` once, after the buy leg confirms, so a trade that
executed a sell leg sees `set_ordered` before any `set_complete`. -/
inductive TradeRun : List TradeOp → Prop where
  | created : TradeRun []
  | ordered (a c x : ℚ) : TradeRun [.markOrdered a c x]
  | completed (a c x y : ℚ) : TradeRun [.markOrdered a c x, .markComplete y]

/-- C2: a fresh trade log is `CREATED`; `set_ordered` moves a row only to
`ORDERED` while setting the starting balances and traded amount;
`set_complete` moves a row only to `COMPLETE` while setting the final
acquired amount; and every run following the orchestrator discipline
observes a state sequence that is a prefix of
`CREATED, ORDERED, COMPLETE` (never backwards, never skipping `ORDERED`
when a sell leg was executed). -/
theorem trade_state_machine :
    (∀ alt crypto selling, (startTradeLog alt crypto selling).state = .CREATED) ∧
    (∀ t a c x, (set_ordered t a c x).state = .ORDERED ∧
       (set_ordered t a c x).alt_starting_balance = some a ∧
       (set_ordered t a c x).crypto_starting_balance = some c ∧
       (set_ordered t a c x).alt_trade_amount = some x) ∧
    (∀ t y, (set_complete t y).state = .COMPLETE ∧
       (set_complete t y).crypto_trade_amount = some y) ∧
    (∀ alt crypto selling ops, TradeRun ops →
       stateTrace (startTradeLog alt crypto selling) ops ∈
         [[TradeState.CREATED], [TradeState.CREATED, .ORDERED],
          [TradeState.CREATED, .ORDERED, .COMPLETE]]) := by
  refine ⟨fun _ _ _ => rfl, fun _ _ _ _ => ⟨rfl, rfl, rfl, rfl⟩,
    fun _ _ => ⟨rfl, rfl⟩, fun alt crypto selling ops hops => ?_⟩
  cases hops with
  | created => simp [stateTrace, startTradeLog]
  | ordered a c x => simp [stateTrace, applyOp, startTradeLog, set_ordered]
  | completed a c x y =>
    simp [stateTrace, applyOp, startTradeLog, set_ordered, set_complete]

/-- Witness for C2: a full sell-then-buy run observes exactly
`CREATED, ORDERED, COMPLETE`. -/
theorem trade_state_machine_witness :
    stateTrace (startTradeLog ⟨"ETH"⟩ ⟨"USDT"⟩ true)
        [.markOrdered 1 2 3, .markComplete 4] ∈
      [[TradeState.CREATED], [TradeState.CREATED, .ORDERED],
       [TradeState.CREATED, .ORDERED, .COMPLETE]] :=
  trade_state_machine.2.2.2 ⟨"ETH"⟩ ⟨"USDT"⟩ true _ (TradeRun.completed 1 2 3 4)

/-! ## Trade Orchestrator: `transaction_through_bridge`
(test1_strategy.py lines 37-69) -/

/-- The value bound to `result` in `transaction_through_bridge`: an order
object returned by `buy_alt` (which has a `price` attribute), or the plain
dict `{"price": 1}` the USDT short-circuit at line 61 builds. -/
inductive OrderResult where
  | order (price : ℚ)
  | priceDict (price : ℚ)
deriving DecidableEq, Repr

/-- Python attribute access `result.price` (line 65): succeeds on an order
object; on a plain dict it raises `AttributeError`. -/
def OrderResult.priceAttr : OrderResult → Except PyError ℚ
  | .order p => .ok p
  | .priceDict _ => .error .attributeError

/-- The market-gateway inputs `transaction_through_bridge` reads, keyed by
coin symbol (the bridge argument is the fixed configured bridge).
`sellAlt` / `buyAlt` return `none` for a failed order; a successful
`buyAlt` carries the order price. -/
structure TxEnv where
  getCurrencyBalance : String → ℚ
  getTickerPrice : String → Option ℚ
  getMinNotional : String → ℚ
  sellAlt : String → Option ℚ
  buyAlt : String → Option ℚ

/-- The observable outcome of one `transaction_through_bridge` call:
the returned value (`.ok none` for a `return None`, `.error` for a raised
exception), whether each exchange leg was issued, the argument of
`db.set_current_coin` if it was called, and the log lines. -/
structure TxOutcome where
  result : Except PyError (Option OrderResult)
  sellTried : Bool
  buyTried : Bool
  coinSet : Option Coin
  thresholdUpdated : Option (Coin × ℚ)
  logs : List String
deriving DecidableEq, Repr

/-- Lines 58-69 of `transaction_through_bridge`: the buy leg (skipped and
short-circuited to the dict `{"price": 1}` when the destination is USDT),
the holding-pointer update, the threshold update reading `result.price`,
and the failure return. `logs0`/`sellTried` carry what the sell leg did. -/
def txBuyLeg (env : TxEnv) (pair : Pair) (logs0 : List String)
    (sellTried : Bool) : TxOutcome :=
  let result : Option OrderResult :=
    if pair.to_coin.symbol ≠ USDT then (env.buyAlt pair.to_coin.symbol).map .order
    else some (.priceDict 1)
  match result with
  | some r =>
    match r.priceAttr with
    | .ok pr =>
      { result := .ok (some r), sellTried := sellTried,
        buyTried := pair.to_coin.symbol ≠ USDT, coinSet := some pair.to_coin,
        thresholdUpdated := some (pair.to_coin, pr), logs := logs0 }
    | .error e =>
      -- line 64 ran before line 65 raised: the pointer is already moved
      { result := .error e, sellTried := sellTried,
        buyTried := pair.to_coin.symbol ≠ USDT, coinSet := some pair.to_coin,
        thresholdUpdated := none, logs := logs0 }
  | none =>
    { result := .ok none, sellTried := sellTried,
      buyTried := pair.to_coin.symbol ≠ USDT, coinSet := none,
      thresholdUpdated := none,
      logs := logs0 ++ ["Couldn't buy, going back to scouting mode..."] }

/-- `Strategy.transaction_through_bridge` (lines 37-69): the sell leg runs
only when the source coin is not USDT, the balance is truthy, and
`balance * from_coin_price` exceeds the minimum notional; evaluating that
comparison with a `None` ticker price raises `TypeError` as in Python. -/
def transaction_through_bridge (env : TxEnv) (pair : Pair) : TxOutcome :=
  let balance := env.getCurrencyBalance pair.from_coin.symbol
  if pair.from_coin.symbol ≠ USDT ∧ balance ≠ 0 then
    match env.getTickerPrice pair.from_coin.symbol with
    | none =>
      { result := .error .typeError, sellTried := false, buyTried := false,
        coinSet := none, thresholdUpdated := none, logs := [] }
    | some fp =>
      if balance * fp > env.getMinNotional pair.from_coin.symbol then
        match env.sellAlt pair.from_coin.symbol with
        | none =>
          { result := .ok none, sellTried := true, buyTried := false,
            coinSet := none, thresholdUpdated := none,
            logs := ["Couldn't sell, going back to scouting mode..."] }
        | some _ => txBuyLeg env pair [] true
      else txBuyLeg env pair ["Skipping sell"] false
  else txBuyLeg env pair ["Skipping sell"] false

/-- Gateway for a rotation whose sell leg succeeds and whose buy leg
fails: balance 1, source price 2000, min notional 10. -/
def envTxB : TxEnv :=
  { getCurrencyBalance := fun _ => 1
    getTickerPrice := fun _ => some 2000
    getMinNotional := fun _ => 10
    sellAlt := fun _ => some 1
    buyAlt := fun _ => none }

/-- Gateway where both exchange legs succeed. -/
def envTxA : TxEnv :=
  { getCurrencyBalance := fun _ => 1
    getTickerPrice := fun _ => some 2000
    getMinNotional := fun _ => 10
    sellAlt := fun _ => some 1
    buyAlt := fun _ => some 1 }

/-- C3: a failed exchange leg aborts the rotation without moving the
holding pointer. A failed sell (line 54) returns `None` before any buy is
attempted; a failed buy after a successful sell (lines 58-69) never calls
`set_current_coin`, logs, and returns `None` to the scouting loop. -/
theorem transaction_aborts_on_leg_failure (env : TxEnv) (pair : Pair) :
    (∀ fp, pair.from_coin.symbol ≠ USDT →
       env.getCurrencyBalance pair.from_coin.symbol ≠ 0 →
       env.getTickerPrice pair.from_coin.symbol = some fp →
       env.getCurrencyBalance pair.from_coin.symbol * fp >
         env.getMinNotional pair.from_coin.symbol →
       env.sellAlt pair.from_coin.symbol = none →
       transaction_through_bridge env pair =
         { result := .ok none, sellTried := true, buyTried := false,
           coinSet := none, thresholdUpdated := none,
           logs := ["Couldn't sell, going back to scouting mode..."] }) ∧
    (∀ fp r, pair.from_coin.symbol ≠ USDT →
       env.getCurrencyBalance pair.from_coin.symbol ≠ 0 →
       env.getTickerPrice pair.from_coin.symbol = some fp →
       env.getCurrencyBalance pair.from_coin.symbol * fp >
         env.getMinNotional pair.from_coin.symbol →
       env.sellAlt pair.from_coin.symbol = some r →
       pair.to_coin.symbol ≠ USDT →
       env.buyAlt pair.to_coin.symbol = none →
       (transaction_through_bridge env pair).result = .ok none ∧
       (transaction_through_bridge env pair).coinSet = none ∧
       "Couldn't buy, going back to scouting mode..." ∈
         (transaction_through_bridge env pair).logs) := by
  constructor
  · intro fp h1 h2 h3 h4 h5
    simp [transaction_through_bridge, h1, h2, h3, h4, h5]
  · intro fp r h1 h2 h3 h4 h5 h6 h7
    simp [transaction_through_bridge, txBuyLeg, h1, h2, h3, h4, h5, h6, h7]

/-- Witness for C3: with a gateway whose buy leg fails after a successful
sell of ETH, the rotation returns `None`, leaves the holding pointer
untouched, and logs the abort. -/
theorem transaction_aborts_on_leg_failure_witness :
    (transaction_through_bridge envTxB pairC1).result = .ok none ∧
    (transaction_through_bridge envTxB pairC1).coinSet = none ∧
    "Couldn't buy, going back to scouting mode..." ∈
      (transaction_through_bridge envTxB pairC1).logs :=
  (transaction_aborts_on_leg_failure envTxB pairC1).2 2000 1 (by decide)
    (by norm_num [envTxB, pairC1]) rfl (by norm_num [envTxB, pairC1]) rfl
    (by decide) rfl

/-- C7, evaluated at its failing input: rotating ETH into USDT with a
successful sell leg short-circuits the buy leg to the dict `{"price": 1}`
and does advance the holding pointer, but then the threshold update at
line 65 reads `result.price` from that plain dict and raises
`AttributeError`, so the call never returns the short-circuited result. -/
theorem transaction_usdt_destination_raises :
    (transaction_through_bridge envTxA pairU).buyTried = false ∧
    (transaction_through_bridge envTxA pairU).coinSet = some ⟨"USDT"⟩ ∧
    (transaction_through_bridge envTxA pairU).result = .error .attributeError := by
  norm_num [transaction_through_bridge, txBuyLeg, OrderResult.priceAttr,
    envTxA, pairU, USDT, eth_ne_usdt]

/-! ## Stop-Loss Monitor data: high-price queries
(database.py lines 169-199 and 226-249) -/

/-- A `CoinValue` row as the high-price query reads it: owning coin,
optional `usd_price`, timestamp (time is embedded as a rational number of
hours, so a `timedelta(hours=h)` cutoff is subtraction by `h`). -/
structure CoinValueRec where
  coinSymbol : String
  usd_price : Option ℚ
  time : ℚ
deriving DecidableEq, Repr

/-- A `ScoutHistory` row as the scout-high query reads it: the evaluated
pair, the optional `current_coin_price`, and the timestamp. -/
structure ScoutRec where
  pair : Pair
  current_coin_price : Option ℚ
  time : ℚ
deriving DecidableEq, Repr

/-- The repository tables the stop-loss queries consult. -/
structure DB where
  pairs : List Pair
  scouts : List ScoutRec
  coinValues : List CoinValueRec
deriving Repr

/-- Python `max` over a list of floats: `none` on the empty list. -/
def listMax : List ℚ → Option ℚ
  | [] => none
  | p :: ps => some (ps.foldl max p)

/-- Helper: a left max-fold returns its seed or an element. -/
theorem foldl_max_mem (ps : List ℚ) (p : ℚ) :
    ps.foldl max p = p ∨ ps.foldl max p ∈ ps := by
  induction ps generalizing p with
  | nil => exact Or.inl rfl
  | cons q qs ih =>
    simp only [List.foldl_cons]
    rcases ih (max p q) with h | h
    · rcases max_choice p q with hc | hc
      · exact Or.inl (by rw [h, hc])
      · exact Or.inr (by rw [h, hc]; exact List.mem_cons_self q qs)
    · exact Or.inr (List.mem_cons_of_mem q h)

/-- Helper: the seed is below a left max-fold. -/
theorem le_foldl_max (ps : List ℚ) (p : ℚ) : p ≤ ps.foldl max p := by
  induction ps generalizing p with
  | nil => exact le_refl p
  | cons q qs ih =>
    simp only [List.foldl_cons]
    exact le_trans (le_max_left p q) (ih (max p q))

/-- Helper: every element is below a left max-fold. -/
theorem foldl_max_ub {ps : List ℚ} {q : ℚ} (hq : q ∈ ps) :
    ∀ p, q ≤ ps.foldl max p := by
  induction hq with
  | head as =>
    intro p
    simp only [List.foldl_cons]
    exact le_trans (le_max_right p q) (le_foldl_max as (max p q))
  | tail b hq ih =>
    intro p
    simp only [List.foldl_cons]
    exact ih (max p b)

/-- Helper: `listMax` returns a member of the list. -/
theorem listMax_mem {l : List ℚ} {m : ℚ} (h : listMax l = some m) : m ∈ l := by
  cases l with
  | nil => cases h
  | cons p ps =>
    simp only [listMax, Option.some.injEq] at h
    subst h
    rcases foldl_max_mem ps p with h | h
    · rw [h]; exact List.mem_cons_self p ps
    · exact List.mem_cons_of_mem p h

/-- Helper: `listMax` is an upper bound of the list. -/
theorem listMax_ub {l : List ℚ} {m q : ℚ} (h : listMax l = some m)
    (hq : q ∈ l) : q ≤ m := by
  cases l with
  | nil => cases h
  | cons p ps =>
    simp only [listMax, Option.some.injEq] at h
    subst h
    rcases List.mem_cons.mp hq with h | h
    · subst h; exact le_foldl_max ps q
    · exact foldl_max_ub h p

/-- The `CoinValue` rows matching the query of
`get_coin_high_price_from_values` (database.py lines 236-241): same coin
and `datetime >= now - timedelta(hours=hours)`. -/
def valuesWindow (db : DB) (coin : Coin) (hours : ℕ) (now : ℚ) :
    List CoinValueRec :=
  db.coinValues.filter fun cv =>
    cv.coinSymbol = coin.symbol ∧ now - (hours : ℚ) ≤ cv.time

/-- `Database.get_coin_high_price_from_values` (lines 226-249): `None` when
no row matches, otherwise the `max` of the non-`None` `usd_price` values
(`None` again when every price is `None`). -/
def get_coin_high_price_from_values (db : DB) (coin : Coin) (hours : ℕ)
    (now : ℚ) : Option ℚ :=
  let coin_values := valuesWindow db coin hours now
  if coin_values.isEmpty then none
  else listMax (coin_values.filterMap (·.usd_price))

/-- One step of the `get_coin_recent_high_price` accumulation (database.py
lines 195-197): a record raises the running maximum only when its
`current_coin_price` is truthy (not `None`, nonzero) and exceeds it. -/
def scoutStep (m : ℚ) (r : ScoutRec) : ℚ :=
  match r.current_coin_price with
  | none => m
  | some p => if p ≠ 0 ∧ p > m then p else m

/-- The `ScoutHistory` rows matching one pair of the query in
`get_coin_recent_high_price` (database.py lines 186-193). -/
def scoutWindow (db : DB) (pair : Pair) (hours : ℕ) (now : ℚ) :
    List ScoutRec :=
  db.scouts.filter fun r => r.pair = pair ∧ now - (hours : ℚ) ≤ r.time

/-- `Database.get_coin_recent_high_price` (lines 169-199): `None` when the
coin has no outgoing pairs, otherwise the running maximum (seeded with 0)
of the truthy scout prices in the window, returned only when positive. -/
def get_coin_recent_high_price (db : DB) (coin : Coin) (hours : ℕ)
    (now : ℚ) : Option ℚ :=
  let pairs_from := db.pairs.filter fun p => p.from_coin.symbol = coin.symbol
  if pairs_from.isEmpty then none
  else
    let max_price := pairs_from.foldl
      (fun m pair => (scoutWindow db pair hours now).foldl scoutStep m) 0
    if max_price > 0 then some max_price else none

/-- Helper: one scout step never lowers the accumulator. -/
theorem le_scoutStep (m : ℚ) (r : ScoutRec) : m ≤ scoutStep m r := by
  cases hp : r.current_coin_price with
  | none => simp [scoutStep, hp]
  | some p =>
    simp only [scoutStep, hp]
    by_cases h : p ≠ 0 ∧ p > m
    · rw [if_pos h]; exact le_of_lt h.2
    · rw [if_neg h]

/-- Helper: a scout-step fold never lowers its seed. -/
theorem le_foldl_scoutStep (rs : List ScoutRec) (m : ℚ) :
    m ≤ rs.foldl scoutStep m := by
  induction rs generalizing m with
  | nil => exact le_refl m
  | cons r rs ih =>
    exact le_trans (le_scoutStep m r) (ih (scoutStep m r))

/-- Helper: a scout-step fold returns its seed or a record's price. -/
theorem foldl_scoutStep_mem (rs : List ScoutRec) (m : ℚ) :
    rs.foldl scoutStep m = m ∨
    ∃ r ∈ rs, r.current_coin_price = some (rs.foldl scoutStep m) := by
  induction rs generalizing m with
  | nil => exact Or.inl rfl
  | cons r rs ih =>
    simp only [List.foldl_cons]
    rcases ih (scoutStep m r) with h | h
    · rw [h]
      cases hp : r.current_coin_price with
      | none => exact Or.inl (by simp [scoutStep, hp])
      | some p =>
        by_cases hc : p ≠ 0 ∧ p > m
        · have hs : scoutStep m r = p := by simp [scoutStep, hp, hc]
          refine Or.inr ⟨r, List.mem_cons_self r rs, ?_⟩
          rw [hs, hp]
        · exact Or.inl (by simp [scoutStep, hp, hc])
    · obtain ⟨r', hr', hpr⟩ := h
      exact Or.inr ⟨r', List.mem_cons_of_mem r hr', hpr⟩

/-- Helper: a scout step keeps the accumulator nonnegative. -/
theorem scoutStep_nonneg {m : ℚ} (hm : 0 ≤ m) (r : ScoutRec) :
    0 ≤ scoutStep m r :=
  le_trans hm (le_scoutStep m r)

/-- Helper: from a nonnegative seed, every recorded price is bounded by the
scout-step fold (a zero or negative price is skipped but still below the
nonnegative result). -/
theorem foldl_scoutStep_ub (rs : List ScoutRec) (m : ℚ) (hm : 0 ≤ m)
    {r : ScoutRec} (hr : r ∈ rs) {p : ℚ}
    (hp : r.current_coin_price = some p) :
    p ≤ rs.foldl scoutStep m := by
  induction rs generalizing m with
  | nil => cases hr
  | cons r0 rs ih =>
    simp only [List.foldl_cons]
    rcases List.mem_cons.mp hr with h | h
    · subst h
      by_cases hc : p ≠ 0 ∧ p > m
      · have hs : scoutStep m r = p := by simp [scoutStep, hp, hc]
        rw [← hs]
        exact le_foldl_scoutStep rs (scoutStep m r)
      · have hpm : p ≤ m := by
          rcases not_and_or.mp hc with h0 | hgt
          · push_neg at h0
            rw [h0]; exact hm
          · exact not_lt.mp hgt
        exact le_trans (le_trans hpm (le_scoutStep m r))
          (le_foldl_scoutStep rs (scoutStep m r))
    · exact ih (scoutStep m r0) (scoutStep_nonneg hm r0) h

/-- Helper: the nested pair-by-pair fold of `get_coin_recent_high_price`
equals a single fold over the concatenated record lists. -/
theorem foldl_scoutStep_bind (f : Pair → List ScoutRec) (ls : List Pair)
    (m : ℚ) :
    ls.foldl (fun m pair => (f pair).foldl scoutStep m) m =
      (ls.flatMap f).foldl scoutStep m := by
  induction ls generalizing m with
  | nil => rfl
  | cons a as ih =>
    simp only [List.foldl_cons, List.flatMap_cons, List.foldl_append]
    exact ih ((f a).foldl scoutStep m)

/-- All `ScoutHistory` rows `get_coin_recent_high_price` scans for a coin:
the windowed records of every pair whose source is the coin. -/
def scoutRecordsOf (db : DB) (coin : Coin) (hours : ℕ) (now : ℚ) :
    List ScoutRec :=
  (db.pairs.filter fun p => p.from_coin.symbol = coin.symbol).flatMap
    fun pair => scoutWindow db pair hours now

/-- The prices among the scanned scout rows. -/
def scoutPricesOf (db : DB) (coin : Coin) (hours : ℕ) (now : ℚ) : List ℚ :=
  (scoutRecordsOf db coin hours now).filterMap (·.current_coin_price)

/-- Helper: a successful scout-high lookup is positive, is one of the
scanned prices, and bounds every scanned price. -/
theorem recent_high_from_scout_max {db : DB} {coin : Coin} {hours : ℕ}
    {now : ℚ} {h : ℚ}
    (hh : get_coin_recent_high_price db coin hours now = some h) :
    0 < h ∧ (∃ r ∈ scoutRecordsOf db coin hours now,
      r.current_coin_price = some h) ∧
    ∀ q ∈ scoutPricesOf db coin hours now, q ≤ h := by
  have hrec : scoutRecordsOf db coin hours now =
      (db.pairs.filter fun p => p.from_coin.symbol = coin.symbol).flatMap
        (fun pair => scoutWindow db pair hours now) := rfl
  simp only [get_coin_recent_high_price] at hh
  by_cases he : (db.pairs.filter fun p => p.from_coin.symbol = coin.symbol).isEmpty
  · rw [if_pos he] at hh; cases hh
  · rw [if_neg he] at hh
    rw [foldl_scoutStep_bind (fun pair => scoutWindow db pair hours now), ← hrec] at hh
    by_cases hpos : (scoutRecordsOf db coin hours now).foldl scoutStep 0 > 0
    · rw [if_pos hpos] at hh
      cases hh
      refine ⟨hpos, ?_, ?_⟩
      · rcases foldl_scoutStep_mem (scoutRecordsOf db coin hours now) 0 with h0 | hm
        · exact absurd (h0 ▸ hpos) (lt_irrefl 0)
        · exact hm
      · intro q hq
        obtain ⟨r, hr, hpr⟩ := List.mem_filterMap.mp hq
        exact foldl_scoutStep_ub (scoutRecordsOf db coin hours now) 0
          (le_refl 0) hr hpr
    · rw [if_neg hpos] at hh; cases hh

/-! ## Stop-Loss Monitor: custom1_strategy.py -/

/-- The stop-loss configuration custom1 reads in `initialize`
(lines 13-15). -/
structure SLConfig where
  stop_loss_percentage : ℚ
  trailing_stop_hours : ℕ
deriving DecidableEq, Repr

/-- The market-gateway and configuration inputs the stop-loss path reads,
keyed by coin symbol. `coins` is `db.get_coins()` (enabled coins);
`bridgeSymbol` is `config.BRIDGE.symbol`. -/
structure SLEnv where
  getTickerPrice : String → Option ℚ
  getCurrencyBalance : String → ℚ
  getMinNotional : String → ℚ
  sellAlt : String → Option ℚ
  buyAlt : String → Option ℚ
  bridgeSymbol : String
  coins : List Coin

/-- Python truthiness of an optional float: `None` and `0.0` are falsy. -/
def truthyB : Option ℚ → Bool
  | none => false
  | some x => x ≠ 0

/-- `Strategy._get_recent_high_price` (custom1_strategy.py lines 165-191):
method 1 queries `CoinValue` rows over `trailing_stop_hours // 24 + 1`,
method 2 queries scout history over `trailing_stop_hours`; a truthy pair of
results is combined with `max`, a single truthy result is returned as is,
and with neither the live ticker price is the reference. -/
def get_recent_high_price (env : SLEnv) (cfg : SLConfig) (db : DB)
    (coin : Coin) (now : ℚ) : Option ℚ :=
  let a := get_coin_high_price_from_values db coin
    (cfg.trailing_stop_hours / 24 + 1) now
  let b := get_coin_recent_high_price db coin cfg.trailing_stop_hours now
  if truthyB a ∧ truthyB b then some (max (a.getD 0) (b.getD 0))
  else if truthyB a then a
  else if truthyB b then b
  else env.getTickerPrice coin.symbol

/-- The observable outcome of one `_execute_stop_loss` call: the returned
boolean, whether the sell and the follow-up buy were issued, the argument
of `db.set_current_coin` if it was called, and the log lines. -/
structure SLOutcome where
  result : Bool
  sellTried : Bool
  buyTried : Bool
  coinSet : Option Coin
  logs : List String
deriving DecidableEq, Repr

/-- `Strategy._execute_stop_loss` (custom1_strategy.py lines 217-272):
returns `False` with no sell call when the balance is not positive or
`balance * price` is under the minimum notional (a `None` ticker price
makes `balance * None` raise `TypeError`, caught by the enclosing
`except`, also returning `False` before any sell); otherwise sells, and on
success converts to USDT (directly when the bridge is USDT, else buying
USDT with the bridge funds when a USDT coin exists). -/
def execute_stop_loss (env : SLEnv) (coin : Coin) : SLOutcome :=
  let balance := env.getCurrencyBalance coin.symbol
  if balance ≤ 0 then
    { result := false, sellTried := false, buyTried := false, coinSet := none,
      logs := ["No balance to sell for stop loss"] }
  else
    match env.getTickerPrice coin.symbol with
    | none =>
      { result := false, sellTried := false, buyTried := false, coinSet := none,
        logs := ["Error executing stop loss"] }
    | some current_price =>
      if balance * current_price < env.getMinNotional coin.symbol then
        { result := false, sellTried := false, buyTried := false,
          coinSet := none, logs := ["Balance too small for stop loss trade"] }
      else
        match env.sellAlt coin.symbol with
        | none =>
          { result := false, sellTried := true, buyTried := false,
            coinSet := none, logs := ["Failed to sell coin for stop loss"] }
        | some _ =>
          if env.bridgeSymbol ≠ USDT then
            match env.coins.find? (fun c => c.symbol = USDT) with
            | some usdt_coin =>
              match env.buyAlt usdt_coin.symbol with
              | some _ =>
                { result := true, sellTried := true, buyTried := true,
                  coinSet := some usdt_coin,
                  logs := ["Stop loss completed: converted to USDT"] }
              | none =>
                { result := true, sellTried := true, buyTried := true,
                  coinSet := none,
                  logs := ["Failed to convert to USDT after stop loss"] }
            | none =>
              { result := true, sellTried := true, buyTried := false,
                coinSet := none,
                logs := ["USDT coin not found, staying in bridge coin"] }
          else
            { result := true, sellTried := true, buyTried := false,
              coinSet := some ⟨env.bridgeSymbol⟩,
              logs := ["Stop loss completed: converted to USDT"] }

/-- The observable outcome of one `_check_trailing_stop_loss` call: the
returned boolean, whether `_execute_stop_loss` was invoked, and its
outcome when it was. -/
structure CheckOutcome where
  result : Bool
  invoked : Bool
  exec : Option SLOutcome
deriving DecidableEq, Repr

/-- `Strategy._check_trailing_stop_loss` (custom1_strategy.py lines
126-163): `False` for USDT, for a missing recent high, and for a zero
recent high (the division raises `ZeroDivisionError`, caught by the
`except`); otherwise computes the drop percentage and delegates to
`_execute_stop_loss` exactly when it reaches `stop_loss_percentage`. -/
def check_trailing_stop_loss (env : SLEnv) (cfg : SLConfig) (db : DB)
    (coin : Coin) (current_price now : ℚ) : CheckOutcome :=
  if coin.symbol = USDT then ⟨false, false, none⟩
  else
    match get_recent_high_price env cfg db coin now with
    | none => ⟨false, false, none⟩
    | some recent_high =>
      if recent_high = 0 then ⟨false, false, none⟩
      else
        let price_drop_percentage := (recent_high - current_price) / recent_high * 100
        if price_drop_percentage ≥ cfg.stop_loss_percentage then
          let o := execute_stop_loss env coin
          ⟨o.result, true, some o⟩
        else ⟨false, false, none⟩

/-- What one custom1 `scout` cycle decides to do next. -/
inductive ScoutAction where
  | usdtScout
  | skip
  | stopped
  | jump
deriving DecidableEq, Repr

/-- `Strategy.scout` (custom1_strategy.py lines 19-54): USDT holdings go to
`_scout_from_usdt`; a missing ticker price skips the cycle; a tripped
stop-loss check ends the cycle; otherwise the cycle proceeds to
`_jump_to_best_coin`. -/
def scout_action (env : SLEnv) (cfg : SLConfig) (db : DB) (coin : Coin)
    (now : ℚ) (stop_loss_enabled : Bool) : ScoutAction :=
  if coin.symbol = USDT then .usdtScout
  else
    match env.getTickerPrice coin.symbol with
    | none => .skip
    | some current_coin_price =>
      if stop_loss_enabled &&
          (check_trailing_stop_loss env cfg db coin current_coin_price now).result
      then .stopped
      else .jump

/-- Helper: when the liquidation call returns `False`, the trailing check
returns `False` as well, whichever path it took. -/
theorem check_result_false {env : SLEnv} {cfg : SLConfig} {db : DB}
    {coin : Coin} {cp now : ℚ}
    (hexec : (execute_stop_loss env coin).result = false) :
    (check_trailing_stop_loss env cfg db coin cp now).result = false := by
  unfold check_trailing_stop_loss
  by_cases h1 : coin.symbol = USDT
  · simp [h1]
  · simp only [if_neg h1]
    cases hh : get_recent_high_price env cfg db coin now with
    | none => rfl
    | some rh =>
      simp only []
      by_cases h2 : rh = 0
      · simp [h2]
      · simp only [if_neg h2]
        by_cases h3 : (rh - cp) / rh * 100 ≥ cfg.stop_loss_percentage
        · simp [h3, hexec]
        · simp [h3]

/-- C5: the recent high resolves as the maximum of the two history sources
(combined with `max` when both are truthy), each source is exactly the
highest matching historical price (membership plus upper bound), and when
neither source has data the live ticker price is used, so the drawdown is
zero and the monitor does not trip on a cold start. -/
theorem stop_loss_recent_high_resolution (env : SLEnv) (cfg : SLConfig)
    (db : DB) (coin : Coin) (now : ℚ) :
    (∀ ha hb,
       get_coin_high_price_from_values db coin
         (cfg.trailing_stop_hours / 24 + 1) now = some ha → ha ≠ 0 →
       get_coin_recent_high_price db coin cfg.trailing_stop_hours now = some hb →
       get_recent_high_price env cfg db coin now = some (max ha hb)) ∧
    (∀ h, get_coin_high_price_from_values db coin
         (cfg.trailing_stop_hours / 24 + 1) now = some h →
       h ∈ (valuesWindow db coin (cfg.trailing_stop_hours / 24 + 1) now).filterMap
           (·.usd_price) ∧
       ∀ q ∈ (valuesWindow db coin (cfg.trailing_stop_hours / 24 + 1) now).filterMap
           (·.usd_price), q ≤ h) ∧
    (∀ h, get_coin_recent_high_price db coin cfg.trailing_stop_hours now = some h →
       0 < h ∧
       (∃ r ∈ scoutRecordsOf db coin cfg.trailing_stop_hours now,
         r.current_coin_price = some h) ∧
       ∀ q ∈ scoutPricesOf db coin cfg.trailing_stop_hours now, q ≤ h) ∧
    (truthyB (get_coin_high_price_from_values db coin
        (cfg.trailing_stop_hours / 24 + 1) now) = false →
     truthyB (get_coin_recent_high_price db coin cfg.trailing_stop_hours now) = false →
     get_recent_high_price env cfg db coin now = env.getTickerPrice coin.symbol ∧
     ∀ cp, env.getTickerPrice coin.symbol = some cp → cp ≠ 0 →
       0 < cfg.stop_loss_percentage → coin.symbol ≠ USDT →
       check_trailing_stop_loss env cfg db coin cp now = ⟨false, false, none⟩) := by
  refine ⟨?_, ?_, ?_, ?_⟩
  · intro ha hb hA hNe hB
    have hbpos : 0 < hb := (recent_high_from_scout_max hB).1
    simp [get_recent_high_price, hA, hB, truthyB, hNe, ne_of_gt hbpos]
  · intro h hA
    simp only [get_coin_high_price_from_values] at hA
    by_cases he : (valuesWindow db coin (cfg.trailing_stop_hours / 24 + 1) now).isEmpty
    · rw [if_pos he] at hA; cases hA
    · rw [if_neg he] at hA
      exact ⟨listMax_mem hA, fun q hq => listMax_ub hA hq⟩
  · exact fun h hB => recent_high_from_scout_max hB
  · intro hta htb
    have heq : get_recent_high_price env cfg db coin now =
        env.getTickerPrice coin.symbol := by
      simp [get_recent_high_price, hta, htb]
    refine ⟨heq, ?_⟩
    intro cp hcp hcp0 hthr hcoin
    have hsome : get_recent_high_price env cfg db coin now = some cp := by
      rw [heq, hcp]
    have hdrop : (cp - cp) / cp * 100 = 0 := by
      rw [sub_self, zero_div, zero_mul]
    simp [check_trailing_stop_loss, hcoin, hsome, hcp0, hdrop, not_le.mpr hthr]

/-- History with one coin-value sample at price 100 and one scout record at
price 90 for the held ETH. -/
def dbW : DB :=
  { pairs := [pairC1]
    scouts := [⟨pairC1, some 90, 0⟩]
    coinValues := [⟨"ETH", some 100, 0⟩] }

/-- Empty history: a cold start. -/
def dbE : DB := { pairs := [], scouts := [], coinValues := [] }

/-- Stop-loss configuration: 15% threshold over a 24-hour lookback. -/
def cfgW : SLConfig := ⟨15, 24⟩

/-- Gateway for the stop-loss scenarios: live price 100, balance 1,
min notional 10, both legs succeed, bridge USDT. -/
def envSL : SLEnv :=
  { getTickerPrice := fun _ => some 100
    getCurrencyBalance := fun _ => 1
    getMinNotional := fun _ => 10
    sellAlt := fun _ => some 1
    buyAlt := fun _ => some 1
    bridgeSymbol := "USDT"
    coins := [⟨"USDT"⟩] }

/-- Witness for C5: with both history sources truthy (values high 100,
scout high 90) the resolved recent high is their maximum. -/
theorem stop_loss_recent_high_resolution_witness :
    get_recent_high_price envSL cfgW dbW ⟨"ETH"⟩ 0 = some (max 100 90) :=
  (stop_loss_recent_high_resolution envSL cfgW dbW ⟨"ETH"⟩ 0).1 100 90
    (by norm_num [get_coin_high_price_from_values, valuesWindow, dbW, cfgW,
      listMax, List.filter_cons, List.filterMap_cons, List.filterMap_nil])
    (by norm_num)
    (by norm_num [get_coin_recent_high_price, scoutWindow, scoutStep, dbW, cfgW,
      pairC1, List.filter_cons, List.foldl_cons, List.foldl_nil])

/-- C6: for a held non-USDT coin whose recent high resolves to a nonzero
value, the liquidation path is invoked exactly when
`(recent_high - current_price) / recent_high * 100` reaches the configured
stop-loss percentage, and the invocation is `_execute_stop_loss`. -/
theorem stop_loss_trip_condition (env : SLEnv) (cfg : SLConfig) (db : DB)
    (coin : Coin) (cp now h : ℚ) (hcoin : coin.symbol ≠ USDT)
    (hh : get_recent_high_price env cfg db coin now = some h) (h0 : h ≠ 0) :
    ((check_trailing_stop_loss env cfg db coin cp now).invoked = true ↔
      (h - cp) / h * 100 ≥ cfg.stop_loss_percentage) ∧
    ((h - cp) / h * 100 ≥ cfg.stop_loss_percentage →
      (check_trailing_stop_loss env cfg db coin cp now).exec =
        some (execute_stop_loss env coin)) := by
  by_cases hge : (h - cp) / h * 100 ≥ cfg.stop_loss_percentage
  · simp [check_trailing_stop_loss, hcoin, hh, h0, hge]
  · simp [check_trailing_stop_loss, hcoin, hh, h0, hge]

/-- Witness for C6, the spec scenario: recent high 100 (cold-start ticker),
current price 80, threshold 15% — the 20% drop invokes the liquidation
path. -/
theorem stop_loss_trip_condition_witness :
    (check_trailing_stop_loss envSL cfgW dbE ⟨"ETH"⟩ 80 0).invoked = true :=
  (stop_loss_trip_condition envSL cfgW dbE ⟨"ETH"⟩ 80 0 100 (by decide)
      (by norm_num [get_recent_high_price, get_coin_high_price_from_values,
        get_coin_recent_high_price, valuesWindow, scoutWindow, truthyB, dbE,
        cfgW, envSL])
      (by norm_num)).1.mpr (by norm_num [cfgW])

/-- C8: the stop-loss liquidation issues no sell call and returns `False`
(a no-op, not a failure) when the balance is not positive or the notional
value is below the exchange minimum, and the scouting cycle then proceeds
to the jump evaluation. -/
theorem stop_loss_liquidation_noop (env : SLEnv) (cfg : SLConfig) (db : DB)
    (coin : Coin) (now : ℚ) :
    (env.getCurrencyBalance coin.symbol ≤ 0 →
       execute_stop_loss env coin =
         { result := false, sellTried := false, buyTried := false,
           coinSet := none, logs := ["No balance to sell for stop loss"] }) ∧
    (∀ price, 0 < env.getCurrencyBalance coin.symbol →
       env.getTickerPrice coin.symbol = some price →
       env.getCurrencyBalance coin.symbol * price <
         env.getMinNotional coin.symbol →
       execute_stop_loss env coin =
         { result := false, sellTried := false, buyTried := false,
           coinSet := none, logs := ["Balance too small for stop loss trade"] }) ∧
    (∀ price, coin.symbol ≠ USDT →
       env.getTickerPrice coin.symbol = some price →
       (env.getCurrencyBalance coin.symbol ≤ 0 ∨
        env.getCurrencyBalance coin.symbol * price <
          env.getMinNotional coin.symbol) →
       ∀ b, scout_action env cfg db coin now b = .jump) := by
  refine ⟨?_, ?_, ?_⟩
  · intro hb
    simp [execute_stop_loss, hb]
  · intro price hb hp hlt
    simp [execute_stop_loss, not_le.mpr hb, hp, hlt]
  · intro price hcoin hp hcase b
    have hexec : (execute_stop_loss env coin).result = false := by
      rcases hcase with hb | hlt
      · simp [execute_stop_loss, hb]
      · by_cases hb : env.getCurrencyBalance coin.symbol ≤ 0
        · simp [execute_stop_loss, hb]
        · simp [execute_stop_loss, hb, hp, hlt]
    simp [scout_action, hcoin, hp, check_result_false hexec]

/-- Gateway with a zero balance for the held coin. -/
def envSL0 : SLEnv :=
  { getTickerPrice := fun _ => some 100
    getCurrencyBalance := fun _ => 0
    getMinNotional := fun _ => 10
    sellAlt := fun _ => some 1
    buyAlt := fun _ => some 1
    bridgeSymbol := "USDT"
    coins := [⟨"USDT"⟩] }

/-- Witness for C8: a zero balance makes the liquidation a no-op with no
sell call, and the cycle still proceeds to the jump evaluation. -/
theorem stop_loss_liquidation_noop_witness :
    execute_stop_loss envSL0 ⟨"ETH"⟩ =
      { result := false, sellTried := false, buyTried := false,
        coinSet := none, logs := ["No balance to sell for stop loss"] } ∧
    scout_action envSL0 cfgW dbE ⟨"ETH"⟩ 0 true = .jump :=
  ⟨(stop_loss_liquidation_noop envSL0 cfgW dbE ⟨"ETH"⟩ 0).1 (by norm_num [envSL0]),
   (stop_loss_liquidation_noop envSL0 cfgW dbE ⟨"ETH"⟩ 0).2.2 100 (by decide)
     rfl (Or.inl (by norm_num [envSL0])) true⟩

/-! ## USDT-origin scouting: `Strategy._scout_from_usdt`
(custom1_strategy.py lines 56-111) -/

/-- The collaborator calls `_scout_from_usdt` makes, each able to raise
(`Except`): `db.get_coins(only_enabled=True)`, the ticker lookup, the
inherited `_get_ratios` (whose implementation lives in `auto_trader.py`,
not under src/, so its resulting score list is abstract here), and
`manager.buy_alt`. -/
structure UsdtEnv where
  getCoins : Except PyError (List Coin)
  getTickerPrice : String → Except PyError (Option ℚ)
  ratiosOf : String → ℚ → Except PyError (List ℚ)
  buyAlt : String → Except PyError (Option ℚ)

/-- Lines 75-94, one iteration of the evaluation loop under its inner
`try`: the coin's average positive ratio, or `none` when the price is
missing, no ratio is positive, or an exception was caught (`continue`). -/
def evalCoin (env : UsdtEnv) (coin : Coin) : Option ℚ :=
  match env.getTickerPrice coin.symbol with
  | .error _ => none
  | .ok none => none
  | .ok (some price) =>
    match env.ratiosOf coin.symbol price with
    | .error _ => none
    | .ok ratios =>
      let positive_ratios := ratios.filter (0 < ·)
      if positive_ratios.isEmpty then none
      else some (positive_ratios.sum / (positive_ratios.length : ℚ))

/-- One step of the best-candidate selection (lines 85-90): a coin
replaces the running best exactly when its average potential strictly
exceeds the best so far. -/
def bestStep (env : UsdtEnv) (acc : Option Coin × ℚ) (coin : Coin) :
    Option Coin × ℚ :=
  match evalCoin env coin with
  | none => acc
  | some avg => if avg > acc.2 then (some coin, avg) else acc

/-- The selection loop (lines 71-94): fold the step over the target coins
starting from `(None, 0)`. -/
def bestFold (env : UsdtEnv) (coins : List Coin) : Option Coin × ℚ :=
  coins.foldl (bestStep env) (none, 0)

/-- What `_scout_from_usdt` observably does: whether (and to which coin) it
moved the holding pointer, and whether the outer `except` caught an
exception (logging it). -/
structure UsdtOutcome where
  coinSet : Option Coin
  errorCaught : Bool
deriving DecidableEq, Repr

/-- The body of `_scout_from_usdt`'s outer `try` (lines 60-108): drop USDT
from the enabled coins, return when no target remains, run the selection
loop, and buy the best coin when its potential is positive, moving the
holding pointer only on a truthy buy result. Exceptions from
`db.get_coins` or `manager.buy_alt` escape this body as `.error`. -/
def scout_from_usdt_body (env : UsdtEnv) : Except PyError UsdtOutcome :=
  match env.getCoins with
  | .error e => .error e
  | .ok all_coins =>
    let target_coins := all_coins.filter fun c => c.symbol ≠ USDT
    if target_coins.isEmpty then .ok { coinSet := none, errorCaught := false }
    else
      match bestFold env target_coins with
      | (some best_coin, best_potential) =>
        if best_potential > 0 then
          match env.buyAlt best_coin.symbol with
          | .error e => .error e
          | .ok (some _) => .ok { coinSet := some best_coin, errorCaught := false }
          | .ok none => .ok { coinSet := none, errorCaught := false }
        else .ok { coinSet := none, errorCaught := false }
      | (none, _) => .ok { coinSet := none, errorCaught := false }

/-- `Strategy._scout_from_usdt` (lines 56-111): the whole body runs inside
`try/except Exception`, so a raised exception is caught and logged and the
call still returns normally with the holding pointer untouched. -/
def scout_from_usdt (env : UsdtEnv) : UsdtOutcome :=
  match scout_from_usdt_body env with
  | .ok o => o
  | .error _ => { coinSet := none, errorCaught := true }

/-- Helper: a selection step never lowers the running potential. -/
theorem le_bestStep (env : UsdtEnv) (acc : Option Coin × ℚ) (coin : Coin) :
    acc.2 ≤ (bestStep env acc coin).2 := by
  cases he : evalCoin env coin with
  | none => simp [bestStep, he]
  | some avg =>
    simp only [bestStep, he]
    by_cases h : avg > acc.2
    · rw [if_pos h]; exact le_of_lt h
    · rw [if_neg h]

/-- Helper: the selection fold never lowers the running potential. -/
theorem le_foldl_bestStep (env : UsdtEnv) (coins : List Coin)
    (acc : Option Coin × ℚ) :
    acc.2 ≤ (coins.foldl (bestStep env) acc).2 := by
  induction coins generalizing acc with
  | nil => exact le_refl acc.2
  | cons c cs ih =>
    exact le_trans (le_bestStep env acc c) (ih (bestStep env acc c))

/-- Helper: the selection fold keeps its seed or picks a coin whose
evaluated average is the final potential. -/
theorem foldl_bestStep_mem (env : UsdtEnv) (coins : List Coin)
    (acc : Option Coin × ℚ) :
    coins.foldl (bestStep env) acc = acc ∨
    ∃ c ∈ coins, evalCoin env c = some (coins.foldl (bestStep env) acc).2 ∧
      (coins.foldl (bestStep env) acc).1 = some c := by
  induction coins generalizing acc with
  | nil => exact Or.inl rfl
  | cons c cs ih =>
    simp only [List.foldl_cons]
    rcases ih (bestStep env acc c) with h | h
    · rw [h]
      cases he : evalCoin env c with
      | none => exact Or.inl (by simp [bestStep, he])
      | some avg =>
        by_cases hgt : avg > acc.2
        · have hs : bestStep env acc c = (some c, avg) := by
            simp [bestStep, he, hgt]
          refine Or.inr ⟨c, List.mem_cons_self c cs, ?_, ?_⟩
          · rw [hs, he]
          · rw [hs]
        · exact Or.inl (by simp [bestStep, he, hgt])
    · obtain ⟨c', hc', he', hp'⟩ := h
      exact Or.inr ⟨c', List.mem_cons_of_mem c hc', he', hp'⟩

/-- Helper: every evaluated average among the scanned coins is bounded by
the final potential of the selection fold. -/
theorem foldl_bestStep_ub (env : UsdtEnv) (coins : List Coin)
    (acc : Option Coin × ℚ) {c : Coin} (hc : c ∈ coins) {a : ℚ}
    (ha : evalCoin env c = some a) :
    a ≤ (coins.foldl (bestStep env) acc).2 := by
  induction coins generalizing acc with
  | nil => cases hc
  | cons c0 cs ih =>
    simp only [List.foldl_cons]
    rcases List.mem_cons.mp hc with h | h
    · subst h
      by_cases hgt : a > acc.2
      · have hs : bestStep env acc c = (some c, a) := by
          simp [bestStep, ha, hgt]
        rw [hs]
        exact le_foldl_bestStep env cs (some c, a)
      · exact le_trans (le_trans (not_lt.mp hgt) (le_bestStep env acc c))
          (le_foldl_bestStep env cs (bestStep env acc c))
    · exact ih (bestStep env acc c0) h

/-- C9: `_scout_from_usdt` treats every exception as "no opportunity found"
(the outer catch returns normally with the pointer untouched and the error
logged), and it moves the holding pointer only after a truthy buy of the
best positive-average candidate: that candidate's evaluated average is
positive and bounds the evaluated average of every target coin. -/
theorem usdt_scout_resilience (env : UsdtEnv) :
    (∀ e, scout_from_usdt_body env = .error e →
       scout_from_usdt env = { coinSet := none, errorCaught := true }) ∧
    (∀ c, (scout_from_usdt env).coinSet = some c →
       (∃ p, env.buyAlt c.symbol = .ok (some p)) ∧
       (∃ avg, evalCoin env c = some avg ∧ 0 < avg ∧
         ∀ all_coins, env.getCoins = .ok all_coins →
           ∀ d ∈ all_coins.filter (fun x => x.symbol ≠ USDT),
             ∀ a, evalCoin env d = some a → a ≤ avg)) := by
  constructor
  · intro e he
    simp [scout_from_usdt, he]
  · intro c hc
    cases hbody : scout_from_usdt_body env with
    | error e =>
      simp only [scout_from_usdt, hbody] at hc
      cases hc
    | ok o =>
      simp only [scout_from_usdt, hbody] at hc
      simp only [scout_from_usdt_body] at hbody
      cases hcoins : env.getCoins with
      | error e => simp only [hcoins] at hbody; cases hbody
      | ok all_coins =>
        simp only [hcoins] at hbody
        by_cases hemp : (all_coins.filter fun x => x.symbol ≠ USDT).isEmpty
        · rw [if_pos hemp] at hbody
          cases hbody
          cases hc
        · rw [if_neg hemp] at hbody
          rcases hbf : bestFold env (all_coins.filter fun x => x.symbol ≠ USDT)
            with ⟨ob, bp⟩
          rw [hbf] at hbody
          cases ob with
          | none =>
            simp only [] at hbody
            cases hbody
            cases hc
          | some bc =>
            simp only [] at hbody
            by_cases hgt : bp > 0
            · rw [if_pos hgt] at hbody
              cases hbuy : env.buyAlt bc.symbol with
              | error e => rw [hbuy] at hbody; cases hbody
              | ok r =>
                rw [hbuy] at hbody
                cases r with
                | none =>
                  cases hbody
                  cases hc
                | some p =>
                  cases hbody
                  simp only [Option.some.injEq] at hc
                  subst hc
                  refine ⟨⟨p, hbuy⟩, bp, ?_, hgt, ?_⟩
                  · have hmem := foldl_bestStep_mem env
                      (all_coins.filter fun x => x.symbol ≠ USDT) (none, 0)
                    rw [show (all_coins.filter fun x => x.symbol ≠ USDT).foldl
                        (bestStep env) (none, 0) =
                        bestFold env (all_coins.filter fun x => x.symbol ≠ USDT)
                        from rfl, hbf] at hmem
                    rcases hmem with h0 | ⟨c', hc', he', hp'⟩
                    · cases h0
                    · simp only [Option.some.injEq] at hp'
                      subst hp'
                      exact he'
                  · intro all_coins' hcoins' d hd a ha
                    cases hcoins'
                    have hub := foldl_bestStep_ub env
                      (all_coins.filter fun x => x.symbol ≠ USDT) (none, 0) hd ha
                    rw [show (all_coins.filter fun x => x.symbol ≠ USDT).foldl
                        (bestStep env) (none, 0) =
                        bestFold env (all_coins.filter fun x => x.symbol ≠ USDT)
                        from rfl, hbf] at hub
                    exact hub
            · rw [if_neg hgt] at hbody
              cases hbody
              cases hc

/-- A gateway whose coin listing raises: the outer catch absorbs it. -/
def envUErr : UsdtEnv :=
  { getCoins := .error .typeError
    getTickerPrice := fun _ => .ok none
    ratiosOf := fun _ _ => .ok []
    buyAlt := fun _ => .ok none }

/-- Witness for C9: when `db.get_coins` raises, the scout returns normally
with the holding pointer untouched and the error marked caught. -/
theorem usdt_scout_resilience_witness :
    scout_from_usdt envUErr = { coinSet := none, errorCaught := true } :=
  (usdt_scout_resilience envUErr).1 .typeError rfl

end BTBot
